import Mathlib

/-!
# gatsby-source-filesystem `find-files.js` and gatsby-cli `create-cli.js`

A shallow embedding of the file finder (`findOnce` and the exported
dispatcher of `find-files.js`) and of two pieces of `create-cli.js` (the
default browserslist of `buildLocalCommands` and the `telemetry` handler),
followed by the properties proved about them.

The libraries the finder calls are not part of the repository: the directory
walker `readdirp` enters as the stream of events it emits, the watcher
`chokidar.watch` as a record of the arguments it is given, and the glob test
behind `anymatch` as a parameter `isMatch pattern path`.
-/

set_option autoImplicit false

namespace FindFiles

/-! ## Glob patterns -/

/-- Splits a path or pattern at every `/` into its segments. -/
def splitSegs : List Char → List (List Char)
  | [] => [[]]
  | c :: cs =>
    if c = '/' then [] :: splitSegs cs
    else
      match splitSegs cs with
      | [] => [[c]]
      | s :: ss => (c :: s) :: ss

/-- Tries a test on a list and on every tail of it: the positions a wildcard
may skip to. -/
def anyTail {α : Type} (f : List α → Bool) : List α → Bool
  | [] => f []
  | a :: as => f (a :: as) || anyTail f as

/-- Matches one pattern segment against one path segment: `*` stands for any
run of characters of the segment, every other character for itself. -/
def segMatch : List Char → List Char → Bool
  | [] => fun s => s.isEmpty
  | p :: ps => fun s =>
    if p = '*' then anyTail (segMatch ps) s
    else
      match s with
      | [] => false
      | c :: cs => p == c && segMatch ps cs

/-- Matches a list of pattern segments against a list of path segments: a
segment `**` stands for any number of path segments (none included), every
other pattern segment for exactly one path segment. -/
def segsMatch : List (List Char) → List (List Char) → Bool
  | [] => fun ss => ss.isEmpty
  | p :: ps => fun ss =>
    if p = ['*', '*'] then anyTail (segsMatch ps) ss
    else
      match ss with
      | [] => false
      | s :: rest => segMatch p s && segsMatch ps rest

/-- Modelled from the spec: the glob test of the external matcher library,
which is not under src/; "standard glob semantics (`*` matches within a path
segment, `**` matches across segments)". `globMatch pattern path` tells
whether the whole path matches the pattern. -/
def globMatch (pattern path : String) : Bool :=
  segsMatch (splitSegs pattern.data) (splitSegs path.data)

/-- Modelled from the spec: the external library call `anymatch(matchers, s)`,
which is not under src/; "a path matches the ignore set if it matches any one
pattern". The test of a single pattern is the parameter `isMatch`. -/
def anymatch (isMatch : String → String → Bool) (matchers : List String)
    (s : String) : Bool :=
  matchers.any (fun m => isMatch m s)

/-! ## The one-shot finder `findOnce` -/

/-- An entry emitted by the walker: `path` is relative to the root, `fullPath`
is absolute. -/
structure EntryInfo where
  path : String
  fullPath : String
  deriving DecidableEq, Repr

/-- The events of the walker's stream. `findOnce` listens to `data` and
`end`; the walker also reports failures, as `warn` and `error` events. -/
inductive StreamEvent where
  | data (d : EntryInfo)
  | end_
  | warn (err : String)
  | error (err : String)
  deriving DecidableEq, Repr

/-- The three states of a promise of a list of paths. -/
inductive PromiseState where
  | pending
  | resolved (value : List String)
  | rejected (reason : String)
  deriving DecidableEq, Repr

/-- The state `findOnce` keeps while the stream runs: the array `fileList`
and the promise it has returned. -/
structure FindState where
  fileList : List String
  promise : PromiseState
  deriving DecidableEq, Repr

/-- The options object of `findOnce`, of which only `ignored` is read. -/
structure OnceOptions where
  ignored : List String
  deriving DecidableEq, Repr

/-- Calling `resolve(value)`: settles a pending promise, and does nothing to a
promise that is settled already. -/
def resolve (p : PromiseState) (value : List String) : PromiseState :=
  match p with
  | .pending => .resolved value
  | .resolved v => .resolved v
  | .rejected r => .rejected r

/-- The `data` listener: an entry whose relative path matches is skipped,
every other entry has its full path pushed on `fileList`. -/
def onData (isMatch : String → String → Bool) (ignored : List String)
    (st : FindState) (data : EntryInfo) : FindState :=
  if anymatch isMatch ignored data.path then st
  else { st with fileList := st.fileList ++ [data.fullPath] }

/-- The `end` listener: `resolve(fileList)`. -/
def onEnd (st : FindState) : FindState :=
  { st with promise := resolve st.promise st.fileList }

/-- Delivery of one stream event to the listeners `findOnce` registered. No
listener is registered for `warn` and `error`: neither event reaches the
promise or `fileList`, whatever the emitter does with an event nobody
listens to. -/
def emit (isMatch : String → String → Bool) (ignored : List String)
    (st : FindState) : StreamEvent → FindState
  | .data d => onData isMatch ignored st d
  | .end_ => onEnd st
  | .warn _ => st
  | .error _ => st

/-- The function `findOnce(path, options)`: the state of the promise it
returned after the stream `readdirp({ root: path })` has emitted its events.
The promise executor receives `resolve` only. -/
def findOnce (isMatch : String → String → Bool)
    (readdirp : String → List StreamEvent) (path : String)
    (options : OnceOptions) : PromiseState :=
  ((readdirp path).foldl (emit isMatch options.ignored) ⟨[], .pending⟩).promise

/-- The entries carried by the `data` events of a run of stream events, in
the order of the run. -/
def dataEntries : List StreamEvent → List EntryInfo
  | [] => []
  | .data d :: evs => d :: dataEntries evs
  | .end_ :: evs => dataEntries evs
  | .warn _ :: evs => dataEntries evs
  | .error _ :: evs => dataEntries evs

/-- Tells the events by which the walker reports a failure, `warn` and
`error`, from `data` and `end`. -/
def StreamEvent.isFailure : StreamEvent → Bool
  | .data _ => false
  | .end_ => false
  | .warn _ => true
  | .error _ => true

/-! ## The exported file finder -/

/-- The values the `watch` option may hold. -/
inductive JsValue where
  | undefined
  | null
  | bool (b : Bool)
  | number (n : Int)
  | string (s : String)
  deriving DecidableEq, Repr

/-- The values of the `ignore` option: absent, `null`, or an array of
patterns. -/
inductive IgnoreOption where
  | undefined
  | null
  | patterns (ps : List String)
  deriving DecidableEq, Repr

/-- The expression `ignore || []`. -/
def IgnoreOption.orEmpty : IgnoreOption → List String
  | .undefined => []
  | .null => []
  | .patterns ps => ps

/-- An options object, with the two fields the finder reads. -/
structure Options where
  watch : JsValue
  ignore : IgnoreOption
  deriving DecidableEq, Repr

/-- The second argument of the finder: an options object, or `undefined`
when the caller passes none, or `null`. -/
inductive OptionsArg where
  | undefined
  | null
  | object (o : Options)
  deriving DecidableEq, Repr

/-- The exception a call can throw. -/
inductive JsError where
  | typeError
  deriving DecidableEq, Repr

/-- What the finder returns: the watcher `chokidar.watch(path, { ignored })`,
recorded by its arguments, or the promise of `findOnce`. -/
inductive FinderResult where
  | watcher (path : String) (ignored : List String)
  | promise (p : PromiseState)
  deriving DecidableEq, Repr

/-- The array `ignored` built by the finder from the `ignore` option. -/
def ignored (ignore : IgnoreOption) : List String :=
  [ "**/*.un~",
    "**/.DS_Store",
    "**/.gitignore",
    "**/.npmignore",
    "**/.babelrc",
    "**/yarn.lock",
    "**/bower_components",
    "**/node_modules",
    "../**/dist/**" ] ++ ignore.orEmpty

/-- The nine built-in patterns that open the array `ignored`. -/
def defaultPatterns : List String :=
  [ "**/*.un~",
    "**/.DS_Store",
    "**/.gitignore",
    "**/.npmignore",
    "**/.babelrc",
    "**/yarn.lock",
    "**/bower_components",
    "**/node_modules",
    "../**/dist/**" ]

/-- The exported function `(path, options) => ...`. Destructuring
`{ watch, ignore }` out of `undefined` or `null` throws a `TypeError`. -/
def fileFinder (isMatch : String → String → Bool)
    (readdirp : String → List StreamEvent) (path : String) :
    OptionsArg → Except JsError FinderResult
  | .undefined => .error .typeError
  | .null => .error .typeError
  | .object o =>
    if o.watch = JsValue.bool true then
      .ok (.watcher path (ignored o.ignore))
    else
      .ok (.promise (findOnce isMatch readdirp path ⟨ignored o.ignore⟩))

/-! ## Directory trees -/

/-- A node of a directory tree: a regular file, or a directory with its
children. -/
inductive FsNode where
  | file (name : String)
  | dir (name : String) (children : List FsNode)

/-- The expression `path.join(a, b)` for a relative `b`, `a` being empty at
the root. -/
def joinPath (a b : String) : String :=
  if a = "" then b else a ++ "/" ++ b

mutual
/-- The entries of the regular files in and below a node that lies in the
directory `rel` of the tree rooted at `root`. -/
def FsNode.entries (root rel : String) : FsNode → List EntryInfo
  | .file name => [⟨joinPath rel name, joinPath root (joinPath rel name)⟩]
  | .dir name children => entriesOf root (joinPath rel name) children
/-- The entries of the regular files in and below a list of sibling nodes. -/
def entriesOf (root rel : String) : List FsNode → List EntryInfo
  | [] => []
  | n :: ns => n.entries root rel ++ entriesOf root rel ns
end

/-- Modelled from the spec: the external directory walker, which is not under
src/; it "recursively enumerates every entry reachable from `root`", emitting
one `data` event per regular file of the tree and then `end`. -/
def readdirpOf (tree : List FsNode) (root : String) : List StreamEvent :=
  (entriesOf root "" tree).map StreamEvent.data ++ [StreamEvent.end_]

/-- The relative paths of the directories an entry resides under: for
`a/b/c.md` they are `a` and `a/b`. -/
def dirsAbove (path : String) : List String :=
  ((splitSegs path.data).dropLast.inits.drop 1).map
    (fun segs => String.mk (List.intercalate ['/'] segs))

/-- The fixture `test-fs` of the finder's test: an `index.md` in the root and
in each of `dirA`, `dirA/a`, `dirA/a/A`, `dirA/b`, `dirA/b/A`, `dirA/c`,
`dirA/c/A` and `dirB`. -/
def testFs : List FsNode :=
  [ .file "index.md",
    .dir "dirA"
      [ .file "index.md",
        .dir "a" [.file "index.md", .dir "A" [.file "index.md"]],
        .dir "b" [.file "index.md", .dir "A" [.file "index.md"]],
        .dir "c" [.file "index.md", .dir "A" [.file "index.md"]] ],
    .dir "dirB" [.file "index.md"] ]

/-- A tree with a `node_modules` directory next to a tracked file. -/
def siteWithModules : List FsNode :=
  [ .file "index.md",
    .dir "node_modules" [.dir "pkg" [.file "index.js"]] ]

/-- A tree with a lockfile in a subdirectory, next to a tracked file. -/
def siteWithLockfile : List FsNode :=
  [ .file "index.md",
    .dir "dirA" [.file "yarn.lock"] ]

end FindFiles

deriving instance DecidableEq for Except

namespace CreateCli

/-! ## The default browserslist of `buildLocalCommands` -/

/-- A JavaScript number: `NaN`, an infinity, or a finite value. -/
inductive JsNumber where
  | nan
  | infinity (negative : Bool)
  | finite (q : ℚ)
  deriving DecidableEq

/-- The values `getLocalGatsbyMajorVersion` returns: `undefined`, a falsy
version string left as it was, or the number made of the major part. -/
inductive MajorVersion where
  | undefined
  | string (s : String)
  | number (n : JsNumber)
  deriving DecidableEq

/-- The file `node_modules/gatsby/package.json`, of which the `version`
field is read (`none` when the field is absent). -/
structure PackageInfo where
  version : Option String

/-- The function `getLocalGatsbyVersion`: the `version` field of the local
Gatsby package, `undefined` when the `require` of its package.json throws
(`packageInfo` is `none`). -/
def getLocalGatsbyVersion (packageInfo : Option PackageInfo) : Option String :=
  match packageInfo with
  | some info => info.version
  | none => none

/-- The expression `version.split(".")[0]`: the part before the first dot. -/
def majorPart (version : String) : String :=
  String.mk (version.data.takeWhile (fun c => c != '.'))

/-- The function `getLocalGatsbyMajorVersion`; the conversion `Number(...)`
of the language is the parameter `Number`. A version that is `undefined` or
the empty string is falsy and is returned as it is. -/
def getLocalGatsbyMajorVersion (Number : String → JsNumber)
    (packageInfo : Option PackageInfo) : MajorVersion :=
  match getLocalGatsbyVersion packageInfo with
  | none => .undefined
  | some version =>
    if version ≠ "" then .number (Number (majorPart version))
    else .string version

/-- The constant `DEFAULT_BROWSERS` of `buildLocalCommands`. -/
def DEFAULT_BROWSERS (Number : String → JsNumber)
    (packageInfo : Option PackageInfo) : List String :=
  if getLocalGatsbyMajorVersion Number packageInfo = .number (.finite 1) then
    ["> 1%", "last 2 versions", "IE >= 9"]
  else
    [">0.25%", "not dead"]

/-- A JSON value, as far as a `browserslist` field needs it. -/
inductive Json where
  | null
  | bool (b : Bool)
  | number (q : ℚ)
  | string (s : String)
  | array (items : List String)
  | object (fields : List (String × List String))
  deriving DecidableEq

/-- Truthiness of a JSON value: `null`, `false`, `0` and the empty string are
falsy, every array and object is truthy. -/
def Json.truthy : Json → Bool
  | .null => false
  | .bool b => b
  | .number q => q != 0
  | .string s => s != ""
  | .array _ => true
  | .object _ => true

/-- The field `siteInfo.browserslist` once `buildLocalCommands` has set it
up: for a local site `json.browserslist || siteInfo.browserslist`, where
`browserslist` is that field of the site's package.json (`none` when it is
absent), and the default otherwise. -/
def siteInfoBrowserslist (Number : String → JsNumber)
    (packageInfo : Option PackageInfo) (isLocalSite : Bool)
    (browserslist : Option Json) : Json :=
  let dflt := Json.array (DEFAULT_BROWSERS Number packageInfo)
  if isLocalSite then
    match browserslist with
    | some v => if v.truthy then v else dflt
    | none => dflt
  else dflt

/-- The conversion `Number(s)` on strings of decimal digits, the empty string
giving `0`, and `NaN` on every other string: a sample of the parameter
`Number`. -/
def decimalNumber (s : String) : JsNumber :=
  if s.data.all Char.isDigit then
    .finite ((s.data.foldl (fun n c => 10 * n + (c.toNat - 48)) 0 : Nat) : ℚ)
  else .nan

/-! ## The `telemetry` command -/

/-- Truthiness of a boolean flag that may not have been passed
(`none` is `undefined`). -/
def flagTruthy : Option Bool → Bool
  | some b => b
  | none => false

/-- What the handler of the `telemetry` command does: the argument it gives
to `setTelemetryEnabled` and the line it logs. -/
structure TelemetryEffect where
  setTelemetryEnabled : Bool
  log : String
  deriving DecidableEq, Repr

/-- The handler `({ enable, disable }) => ...` of the `telemetry` command. -/
def telemetryHandler (enable disable : Option Bool) : TelemetryEffect :=
  let enabled := flagTruthy enable || !flagTruthy disable
  { setTelemetryEnabled := enabled,
    log := "Telemetry collection " ++ (if enabled then "enabled" else "disabled") }

end CreateCli

/-! # Properties -/

namespace FindFiles

/-! ## Auxiliary facts about the listeners -/

/-- A run of `data` events appends to `fileList` the full paths of the entries
whose relative path does not match, and leaves the promise alone. -/
theorem foldl_emit_data (isMatch : String → String → Bool) (ign : List String)
    (es : List EntryInfo) (st : FindState) :
    (es.map StreamEvent.data).foldl (emit isMatch ign) st =
      ⟨st.fileList ++
        (es.filter (fun e => !anymatch isMatch ign e.path)).map EntryInfo.fullPath,
       st.promise⟩ := by
  induction es generalizing st with
  | nil => simp
  | cons e es ih =>
    simp only [List.map_cons, List.foldl_cons, ih, emit, onData]
    by_cases hm : anymatch isMatch ign e.path = true
    · simp [hm]
    · simp [hm]

/-- On a stream of `data` events closed by `end`, `findOnce` resolves to the
full paths of the entries whose relative path does not match. -/
theorem findOnce_of_entries (isMatch : String → String → Bool)
    (readdirp : String → List StreamEvent) (root : String) (ign : List String)
    (es : List EntryInfo)
    (h : readdirp root = es.map StreamEvent.data ++ [StreamEvent.end_]) :
    findOnce isMatch readdirp root ⟨ign⟩ =
      .resolved
        ((es.filter (fun e => !anymatch isMatch ign e.path)).map EntryInfo.fullPath) := by
  simp [findOnce, h, List.foldl_append, foldl_emit_data, emit, onEnd, resolve]

/-- No event turns a promise that is not rejected into a rejected one. -/
theorem emit_not_rejected (isMatch : String → String → Bool) (ign : List String)
    (st : FindState) (ev : StreamEvent)
    (h : ∀ reason, st.promise ≠ .rejected reason) :
    ∀ reason, (emit isMatch ign st ev).promise ≠ .rejected reason := by
  intro reason
  cases ev with
  | data d =>
    simp only [emit, onData]
    split <;> exact h reason
  | end_ =>
    simp only [emit, onEnd]
    cases hp : st.promise with
    | pending => simp [resolve]
    | resolved v => simp [resolve]
    | rejected r => exact absurd hp (h r)
  | warn err => exact h reason
  | error err => exact h reason

/-- A whole stream of events never leaves the promise rejected. -/
theorem foldl_emit_not_rejected (isMatch : String → String → Bool)
    (ign : List String) (evs : List StreamEvent) (st : FindState)
    (h : ∀ reason, st.promise ≠ .rejected reason) :
    ∀ reason, (evs.foldl (emit isMatch ign) st).promise ≠ .rejected reason := by
  induction evs generalizing st with
  | nil => simpa using h
  | cons ev evs ih =>
    simp only [List.foldl_cons]
    exact ih _ (emit_not_rejected isMatch ign st ev h)

/-- A stream without `end` leaves the promise as it was. -/
theorem foldl_emit_no_end (isMatch : String → String → Bool)
    (ign : List String) (evs : List StreamEvent) (st : FindState)
    (h : StreamEvent.end_ ∉ evs) :
    (evs.foldl (emit isMatch ign) st).promise = st.promise := by
  induction evs generalizing st with
  | nil => rfl
  | cons ev evs ih =>
    simp only [List.mem_cons, not_or] at h
    simp only [List.foldl_cons]
    rw [ih _ h.2]
    cases ev with
    | data d =>
      simp only [emit, onData]
      split <;> rfl
    | end_ => exact absurd rfl h.1
    | warn err => rfl
    | error err => rfl

/-- A promise that is resolved stays resolved with the same value. -/
theorem foldl_emit_resolved (isMatch : String → String → Bool)
    (ign : List String) (evs : List StreamEvent) (st : FindState)
    (v : List String) (h : st.promise = .resolved v) :
    (evs.foldl (emit isMatch ign) st).promise = .resolved v := by
  induction evs generalizing st with
  | nil => simpa using h
  | cons ev evs ih =>
    simp only [List.foldl_cons]
    apply ih
    cases ev with
    | data d =>
      simp only [emit, onData]
      split <;> exact h
    | end_ => simp [emit, onEnd, resolve, h]
    | warn err => exact h
    | error err => exact h

/-- A run of events without `end` appends to `fileList` the full paths of the
unignored entries of its `data` events, and leaves the promise alone. -/
theorem foldl_emit_before_end (isMatch : String → String → Bool)
    (ign : List String) (evs : List StreamEvent) (st : FindState)
    (h : StreamEvent.end_ ∉ evs) :
    evs.foldl (emit isMatch ign) st =
      ⟨st.fileList ++
        ((dataEntries evs).filter (fun e => !anymatch isMatch ign e.path)).map
          EntryInfo.fullPath,
       st.promise⟩ := by
  induction evs generalizing st with
  | nil => simp [dataEntries]
  | cons ev evs ih =>
    simp only [List.mem_cons, not_or] at h
    simp only [List.foldl_cons]
    rw [ih _ h.2]
    cases ev with
    | data d =>
      simp only [emit, onData, dataEntries]
      by_cases hm : anymatch isMatch ign d.path = true
      · simp [hm]
      · simp [hm]
    | end_ => exact absurd rfl h.1
    | warn err => simp [emit, dataEntries]
    | error err => simp [emit, dataEntries]

/-- Taking the `warn` and `error` events out of a run of events does not
change the state the run ends in. -/
theorem foldl_emit_drop_failures (isMatch : String → String → Bool)
    (ign : List String) (evs : List StreamEvent) (st : FindState) :
    (evs.filter (fun ev => !ev.isFailure)).foldl (emit isMatch ign) st =
      evs.foldl (emit isMatch ign) st := by
  induction evs generalizing st with
  | nil => rfl
  | cons ev evs ih =>
    cases ev with
    | data d =>
      have h1 : (StreamEvent.data d).isFailure = false := rfl
      simp only [List.filter_cons, h1, Bool.not_false, if_true, List.foldl_cons]
      exact ih _
    | end_ =>
      have h1 : StreamEvent.end_.isFailure = false := rfl
      simp only [List.filter_cons, h1, Bool.not_false, if_true, List.foldl_cons]
      exact ih _
    | warn err =>
      have h1 : (StreamEvent.warn err).isFailure = true := rfl
      simp only [List.filter_cons, h1, Bool.not_true, Bool.false_eq_true, if_false,
        List.foldl_cons, emit]
      exact ih _
    | error err =>
      have h1 : (StreamEvent.error err).isFailure = true := rfl
      simp only [List.filter_cons, h1, Bool.not_true, Bool.false_eq_true, if_false,
        List.foldl_cons, emit]
      exact ih _

/-- Membership in the list `findOnce` resolves to. -/
theorem mem_kept (isMatch : String → String → Bool) (ign : List String)
    (es : List EntryInfo) (p : String) :
    p ∈ (es.filter (fun e => !anymatch isMatch ign e.path)).map EntryInfo.fullPath ↔
      ∃ e ∈ es, anymatch isMatch ign e.path = false ∧ e.fullPath = p := by
  simp [List.mem_map, List.mem_filter, and_assoc]

/-! ## The one-shot finder -/

/-- C1: when the walker emits the entries `es` for the root and then signals
`end`, `findOnce` resolves to the full paths of exactly those entries whose
relative path matches no pattern of the ignore list, in the order of emission;
and when no entry matches, the result has as many elements as there are
entries and holds the full path of each. -/
theorem findOnce_resolves_unignored (isMatch : String → String → Bool)
    (readdirp : String → List StreamEvent) (root : String) (ign : List String)
    (es : List EntryInfo)
    (h : readdirp root = es.map StreamEvent.data ++ [StreamEvent.end_]) :
    findOnce isMatch readdirp root ⟨ign⟩ =
        .resolved
          ((es.filter (fun e => !anymatch isMatch ign e.path)).map EntryInfo.fullPath) ∧
      ((∀ e ∈ es, anymatch isMatch ign e.path = false) →
        ∃ r, findOnce isMatch readdirp root ⟨ign⟩ = .resolved r ∧
          r.length = es.length ∧ ∀ e ∈ es, e.fullPath ∈ r) := by
  refine ⟨findOnce_of_entries isMatch readdirp root ign es h, fun hno => ?_⟩
  have hall : es.filter (fun e => !anymatch isMatch ign e.path) = es := by
    apply List.filter_eq_self.mpr
    intro e he
    simp [hno e he]
  refine ⟨es.map EntryInfo.fullPath, ?_, by simp, ?_⟩
  · rw [findOnce_of_entries isMatch readdirp root ign es h, hall]
  · intro e he
    exact List.mem_map_of_mem _ he

/-- C1, on the fixture of the test: the nine `index.md` files of `test-fs`,
none of which matches a default pattern, are all in the result. -/
theorem findOnce_resolves_unignored_witness :
    readdirpOf testFs "/r" =
        (entriesOf "/r" "" testFs).map StreamEvent.data ++ [StreamEvent.end_] ∧
      findOnce globMatch (readdirpOf testFs) "/r" ⟨ignored .undefined⟩ =
        .resolved
          [ "/r/index.md", "/r/dirA/index.md", "/r/dirA/a/index.md",
            "/r/dirA/a/A/index.md", "/r/dirA/b/index.md", "/r/dirA/b/A/index.md",
            "/r/dirA/c/index.md", "/r/dirA/c/A/index.md", "/r/dirB/index.md" ] :=
  ⟨rfl,
   (findOnce_resolves_unignored globMatch (readdirpOf testFs) "/r"
      (ignored .undefined) (entriesOf "/r" "" testFs) rfl).1.trans (by decide)⟩

/-- An entry whose relative path matches a pattern of the ignore list is not
counted among the kept entries of a one-shot scan: every path of the result
belongs to an emitted entry that matches no pattern. -/
theorem findOnce_result_unmatched (isMatch : String → String → Bool)
    (readdirp : String → List StreamEvent) (root : String) (ign : List String)
    (es : List EntryInfo)
    (h : readdirp root = es.map StreamEvent.data ++ [StreamEvent.end_]) :
    ∃ r, findOnce isMatch readdirp root ⟨ign⟩ = .resolved r ∧
      ∀ p ∈ r, ∃ e ∈ es, e.fullPath = p ∧ ∀ pat ∈ ign, isMatch pat e.path = false := by
  refine ⟨_, findOnce_of_entries isMatch readdirp root ign es h, ?_⟩
  intro p hp
  obtain ⟨e, he, hm, hfp⟩ := (mem_kept isMatch ign es p).mp hp
  refine ⟨e, he, hfp, ?_⟩
  intro pat hpat
  by_contra hc
  have : anymatch isMatch ign e.path = true := by
    simp only [anymatch, List.any_eq_true]
    exact ⟨pat, hpat, by simpa using hc⟩
  simp [this] at hm

/-- C2: the tree that holds a `node_modules` directory next to the tracked
file `index.md`, scanned under the default ignore list. The directory path
`node_modules` matches the default pattern `**/node_modules`, the file
`node_modules/pkg/index.js` resides under that directory, and the result of
the scan holds that file along with the tracked one. -/
theorem fileFinder_keeps_files_under_node_modules :
    "**/node_modules" ∈ ignored .undefined ∧
      globMatch "**/node_modules" "node_modules" = true ∧
      "node_modules" ∈ dirsAbove "node_modules/pkg/index.js" ∧
      anymatch globMatch (ignored .undefined) "node_modules/pkg/index.js" = false ∧
      fileFinder globMatch (readdirpOf siteWithModules) "/site"
          (.object ⟨.undefined, .undefined⟩) =
        .ok (.promise (.resolved ["/site/index.md", "/site/node_modules/pkg/index.js"])) := by
  decide

/-- C3, as stated, fails: with the empty caller list `[]` the regular file
`dirA/yarn.lock` of the tree is missing from the result, which holds the
tracked file only. -/
theorem fileFinder_empty_ignore_drops_lockfile :
    (⟨"dirA/yarn.lock", "/site/dirA/yarn.lock"⟩ : EntryInfo) ∈
        entriesOf "/site" "" siteWithLockfile ∧
      fileFinder globMatch (readdirpOf siteWithLockfile) "/site"
          (.object ⟨.undefined, .patterns []⟩) =
        .ok (.promise (.resolved ["/site/index.md"])) ∧
      "/site/dirA/yarn.lock" ∉ ["/site/index.md"] := by
  decide

/-- C3, amended: with no caller patterns (`ignore` absent, `null` or `[]`) and
a walker that emits each regular file once, the one-shot scan resolves to a
list without duplicates that holds only full paths of emitted files, holds no
file whose relative path matches one of the nine default patterns, and holds
every file that neither matches a default pattern nor resides under a
directory matching one. -/
theorem fileFinder_empty_ignore_result (isMatch : String → String → Bool)
    (readdirp : String → List StreamEvent) (root : String) (w : JsValue)
    (ig : IgnoreOption) (es : List EntryInfo)
    (hw : w ≠ JsValue.bool true)
    (hig : ig = .undefined ∨ ig = .null ∨ ig = .patterns [])
    (h : readdirp root = es.map StreamEvent.data ++ [StreamEvent.end_])
    (hnodup : (es.map EntryInfo.fullPath).Nodup) :
    ∃ r, fileFinder isMatch readdirp root (.object ⟨w, ig⟩) = .ok (.promise (.resolved r)) ∧
      r.Nodup ∧
      (∀ p ∈ r, ∃ e ∈ es, e.fullPath = p) ∧
      (∀ e ∈ es, anymatch isMatch defaultPatterns e.path = true → e.fullPath ∉ r) ∧
      (∀ e ∈ es, anymatch isMatch defaultPatterns e.path = false →
        (∀ d ∈ dirsAbove e.path, anymatch isMatch defaultPatterns d = false) →
        e.fullPath ∈ r) := by
  have hign : ignored ig = defaultPatterns := by
    rcases hig with rfl | rfl | rfl <;> rfl
  refine ⟨(es.filter (fun e => !anymatch isMatch defaultPatterns e.path)).map
      EntryInfo.fullPath, ?_, ?_, ?_, ?_, ?_⟩
  · simp only [fileFinder, if_neg hw, hign]
    rw [findOnce_of_entries isMatch readdirp root defaultPatterns es h]
  · have hsub : List.Sublist
        ((es.filter (fun e => !anymatch isMatch defaultPatterns e.path)).map
          EntryInfo.fullPath) (es.map EntryInfo.fullPath) :=
      (List.filter_sublist es).map EntryInfo.fullPath
    exact hnodup.sublist hsub
  · intro p hp
    obtain ⟨e, he, _, hfp⟩ := (mem_kept isMatch defaultPatterns es p).mp hp
    exact ⟨e, he, hfp⟩
  · intro e he hm hin
    obtain ⟨e2, he2, hm2, hfp⟩ := (mem_kept isMatch defaultPatterns es _).mp hin
    have heq : e2 = e :=
      List.inj_on_of_nodup_map hnodup he2 he hfp
    rw [heq, hm] at hm2
    exact Bool.noConfusion hm2
  · intro e he hm _
    exact (mem_kept isMatch defaultPatterns es _).mpr ⟨e, he, hm, rfl⟩

/-- C3, amended, on the tree with a lockfile: the scan with the caller list
`[]` resolves to a duplicate-free list that holds the tracked file. -/
theorem fileFinder_empty_ignore_result_witness :
    ∃ r, fileFinder globMatch (readdirpOf siteWithLockfile) "/site"
          (.object ⟨.undefined, .patterns []⟩) = .ok (.promise (.resolved r)) ∧
      r.Nodup ∧
      (∀ p ∈ r, ∃ e ∈ entriesOf "/site" "" siteWithLockfile, e.fullPath = p) ∧
      (∀ e ∈ entriesOf "/site" "" siteWithLockfile,
        anymatch globMatch defaultPatterns e.path = true → e.fullPath ∉ r) ∧
      (∀ e ∈ entriesOf "/site" "" siteWithLockfile,
        anymatch globMatch defaultPatterns e.path = false →
        (∀ d ∈ dirsAbove e.path, anymatch globMatch defaultPatterns d = false) →
        e.fullPath ∈ r) :=
  fileFinder_empty_ignore_result globMatch (readdirpOf siteWithLockfile) "/site"
    .undefined (.patterns []) (entriesOf "/site" "" siteWithLockfile)
    (by decide) (Or.inr (Or.inr rfl)) rfl (by decide)

/-! ## The exported finder -/

/-- C4: called with the root path alone, so that `options` is `undefined`, the
finder throws a `TypeError` for every root, walker and matcher and returns no
promise; on the fixture of the test the call with an empty options object is
the one that resolves to the nine paths. -/
theorem fileFinder_without_options_throws :
    (∀ (isMatch : String → String → Bool) (readdirp : String → List StreamEvent)
        (root : String),
        fileFinder isMatch readdirp root .undefined = .error .typeError) ∧
      fileFinder globMatch (readdirpOf testFs) "/r" .undefined = .error .typeError ∧
      fileFinder globMatch (readdirpOf testFs) "/r" (.object ⟨.undefined, .undefined⟩) =
        .ok (.promise (.resolved
          [ "/r/index.md", "/r/dirA/index.md", "/r/dirA/a/index.md",
            "/r/dirA/a/A/index.md", "/r/dirA/b/index.md", "/r/dirA/b/A/index.md",
            "/r/dirA/c/index.md", "/r/dirA/c/A/index.md", "/r/dirB/index.md" ])) :=
  ⟨fun _ _ _ => rfl, rfl, by decide⟩

/-- C5, as stated, fails: when the walker reports the failure of a missing
root as an `error` event and emits nothing else, the promise of the one-shot
scan is not rejected with that error; it is left pending. -/
theorem findOnce_error_leaves_pending :
    findOnce globMatch (fun _ => [StreamEvent.error "ENOENT"]) "/missing"
        ⟨ignored .undefined⟩ = .pending ∧
      findOnce globMatch (fun _ => [StreamEvent.error "ENOENT"]) "/missing"
        ⟨ignored .undefined⟩ ≠ .rejected "ENOENT" := by
  decide

/-- C5, amended: the promise of a one-shot scan is never rejected, whatever
the walker emits. When the walker signals `end`, the promise is resolved with
the list collected up to the first `end`, which holds the full paths of the
unignored entries emitted before it, in their order; when the walker never
signals `end`, the promise stays pending. The failures the walker reports
have no effect: the promise ends in the same state as on the stream with the
`warn` and `error` events taken out. -/
theorem findOnce_settles_only_on_end (isMatch : String → String → Bool)
    (readdirp : String → List StreamEvent) (root : String)
    (options : OnceOptions) :
    (∀ reason, findOnce isMatch readdirp root options ≠ .rejected reason) ∧
      (∀ pre post, readdirp root = pre ++ StreamEvent.end_ :: post →
        StreamEvent.end_ ∉ pre →
        findOnce isMatch readdirp root options =
          .resolved
            (((dataEntries pre).filter
              (fun e => !anymatch isMatch options.ignored e.path)).map
              EntryInfo.fullPath)) ∧
      (StreamEvent.end_ ∉ readdirp root →
        findOnce isMatch readdirp root options = .pending) ∧
      findOnce isMatch readdirp root options =
        findOnce isMatch
          (fun path => (readdirp path).filter (fun ev => !ev.isFailure)) root options := by
  refine ⟨?_, ?_, ?_, ?_⟩
  · exact foldl_emit_not_rejected isMatch options.ignored (readdirp root) _
      (by intro reason; simp)
  · intro pre post hsplit hpre
    unfold findOnce
    rw [hsplit, List.foldl_append, List.foldl_cons,
      foldl_emit_before_end isMatch options.ignored pre _ hpre]
    apply foldl_emit_resolved
    simp [emit, onEnd, resolve]
  · intro hend
    exact foldl_emit_no_end isMatch options.ignored (readdirp root) _ hend
  · unfold findOnce
    rw [foldl_emit_drop_failures]

/-- C6: the array `ignored` is the nine built-in patterns, in their order,
followed by the caller's `ignore` patterns in theirs, and it is what the finder
hands on; with `ignore` absent, `null` or empty it is the nine patterns alone.
A pattern is in it exactly when it is a built-in or a caller pattern, and
every built-in pattern is in it whatever the caller passes. -/
theorem ignored_eq_defaults_append (ig : IgnoreOption) :
    ignored ig =
        [ "**/*.un~", "**/.DS_Store", "**/.gitignore", "**/.npmignore",
          "**/.babelrc", "**/yarn.lock", "**/bower_components", "**/node_modules",
          "../**/dist/**" ] ++ ig.orEmpty ∧
      ignored ig = defaultPatterns ++ ig.orEmpty ∧
      ignored .undefined = defaultPatterns ∧
      ignored .null = defaultPatterns ∧
      ignored (.patterns []) = defaultPatterns ∧
      (∀ ps, ignored (.patterns ps) = defaultPatterns ++ ps) ∧
      (∀ p, p ∈ ignored ig ↔ p ∈ defaultPatterns ∨ p ∈ ig.orEmpty) ∧
      (∀ p ∈ defaultPatterns, p ∈ ignored ig) ∧
      (∀ (isMatch : String → String → Bool) (readdirp : String → List StreamEvent)
          (root : String) (w : JsValue),
        fileFinder isMatch readdirp root (.object ⟨w, ig⟩) =
            .ok (.watcher root (defaultPatterns ++ ig.orEmpty)) ∨
          fileFinder isMatch readdirp root (.object ⟨w, ig⟩) =
            .ok (.promise
              (findOnce isMatch readdirp root ⟨defaultPatterns ++ ig.orEmpty⟩))) := by
  have h : ignored ig = defaultPatterns ++ ig.orEmpty := rfl
  refine ⟨rfl, h, rfl, rfl, rfl, fun _ => rfl, ?_, ?_, ?_⟩
  · intro p
    rw [h, List.mem_append]
  · intro p hp
    rw [h, List.mem_append]
    exact Or.inl hp
  · intro isMatch readdirp root w
    by_cases hw : w = JsValue.bool true
    · left
      simp [fileFinder, hw, h]
    · right
      simp [fileFinder, hw, h]

/-- C7: for every root and caller list there is one list `l`, the built-in
patterns followed by the caller's, such that with `watch` being `true` the
finder sets up the watcher on the root with `ignored` being `l`, and with
every other value of `watch`, `undefined` included, it returns the promise of
`findOnce` on the root with `ignored` being `l`. -/
theorem fileFinder_mode_and_ignored (isMatch : String → String → Bool)
    (readdirp : String → List StreamEvent) (root : String) (ig : IgnoreOption) :
    ∃ l, l = defaultPatterns ++ ig.orEmpty ∧
      fileFinder isMatch readdirp root (.object ⟨.bool true, ig⟩) =
        .ok (.watcher root l) ∧
      (∀ w, w ≠ JsValue.bool true →
        fileFinder isMatch readdirp root (.object ⟨w, ig⟩) =
          .ok (.promise (findOnce isMatch readdirp root ⟨l⟩))) ∧
      (∀ w l2, fileFinder isMatch readdirp root (.object ⟨w, ig⟩) = .ok (.watcher root l2) →
        w = JsValue.bool true) := by
  refine ⟨defaultPatterns ++ ig.orEmpty, rfl, ?_, ?_, ?_⟩
  · simp [fileFinder]
    rfl
  · intro w hw
    simp [fileFinder, hw]
    rfl
  · intro w l2 hres
    by_contra hw
    simp [fileFinder, hw] at hres

/-- C8: two one-shot scans with the same options whose walkers emit the same
set of entries, in whatever order, resolve to lists with the same members. -/
theorem fileFinder_twice_same_paths (isMatch : String → String → Bool)
    (readdirp₁ readdirp₂ : String → List StreamEvent) (root : String)
    (w : JsValue) (ig : IgnoreOption) (es₁ es₂ : List EntryInfo)
    (hw : w ≠ JsValue.bool true)
    (h₁ : readdirp₁ root = es₁.map StreamEvent.data ++ [StreamEvent.end_])
    (h₂ : readdirp₂ root = es₂.map StreamEvent.data ++ [StreamEvent.end_])
    (hsame : ∀ e, e ∈ es₁ ↔ e ∈ es₂) :
    ∃ r₁ r₂,
      fileFinder isMatch readdirp₁ root (.object ⟨w, ig⟩) = .ok (.promise (.resolved r₁)) ∧
      fileFinder isMatch readdirp₂ root (.object ⟨w, ig⟩) = .ok (.promise (.resolved r₂)) ∧
      ∀ p, p ∈ r₁ ↔ p ∈ r₂ := by
  refine ⟨(es₁.filter (fun e => !anymatch isMatch (ignored ig) e.path)).map
      EntryInfo.fullPath,
    (es₂.filter (fun e => !anymatch isMatch (ignored ig) e.path)).map
      EntryInfo.fullPath, ?_, ?_, ?_⟩
  · simp only [fileFinder, if_neg hw]
    rw [findOnce_of_entries isMatch readdirp₁ root (ignored ig) es₁ h₁]
  · simp only [fileFinder, if_neg hw]
    rw [findOnce_of_entries isMatch readdirp₂ root (ignored ig) es₂ h₂]
  · intro p
    rw [mem_kept, mem_kept]
    constructor
    · rintro ⟨e, he, hm, hp⟩
      exact ⟨e, (hsame e).mp he, hm, hp⟩
    · rintro ⟨e, he, hm, hp⟩
      exact ⟨e, (hsame e).mpr he, hm, hp⟩

/-- C8, on the tree with a `node_modules` directory: a walker that emits the
two files in one order and a walker that emits them in the other order lead
to results with the same members. -/
theorem fileFinder_twice_same_paths_witness :
    ∃ r₁ r₂,
      fileFinder globMatch (readdirpOf siteWithModules) "/site"
          (.object ⟨.undefined, .patterns ["*.tmp"]⟩) = .ok (.promise (.resolved r₁)) ∧
      fileFinder globMatch
          (fun root => (entriesOf root "" siteWithModules).reverse.map StreamEvent.data ++
            [StreamEvent.end_]) "/site"
          (.object ⟨.undefined, .patterns ["*.tmp"]⟩) = .ok (.promise (.resolved r₂)) ∧
      ∀ p, p ∈ r₁ ↔ p ∈ r₂ :=
  fileFinder_twice_same_paths globMatch (readdirpOf siteWithModules)
    (fun root => (entriesOf root "" siteWithModules).reverse.map StreamEvent.data ++
      [StreamEvent.end_]) "/site" .undefined (.patterns ["*.tmp"])
    (entriesOf "/site" "" siteWithModules) (entriesOf "/site" "" siteWithModules).reverse
    (by decide) rfl rfl (fun e => List.mem_reverse.symm)

end FindFiles

namespace CreateCli

/-! ## The default browserslist -/

/-- C9: for every version string of the local Gatsby, the default browserslist
is the list without `not dead` when the number made of the part before the
first dot is 1, and the list with `not dead` otherwise; it is the list with
`not dead` too when no local version is found. The default holds `not dead`
exactly when the local major version is not 1, and a local site whose
package.json has a truthy `browserslist` gets that field instead of the
default. The conversion `Number` is only asked not to turn the empty string
into 1. -/
theorem DEFAULT_BROWSERS_by_major (Number : String → JsNumber)
    (hempty : Number "" ≠ .finite 1) :
    (∀ version : String,
        DEFAULT_BROWSERS Number (some ⟨some version⟩) =
          if Number (majorPart version) = .finite 1 then
            ["> 1%", "last 2 versions", "IE >= 9"]
          else [">0.25%", "not dead"]) ∧
      DEFAULT_BROWSERS Number none = [">0.25%", "not dead"] ∧
      DEFAULT_BROWSERS Number (some ⟨none⟩) = [">0.25%", "not dead"] ∧
      (∀ packageInfo,
        "not dead" ∈ DEFAULT_BROWSERS Number packageInfo ↔
          getLocalGatsbyMajorVersion Number packageInfo ≠ .number (.finite 1)) ∧
      (∀ packageInfo field, field.truthy = true →
        siteInfoBrowserslist Number packageInfo true (some field) = field) ∧
      (∀ packageInfo isLocalSite,
        siteInfoBrowserslist Number packageInfo isLocalSite none =
          .array (DEFAULT_BROWSERS Number packageInfo)) := by
  refine ⟨?_, rfl, rfl, ?_, ?_, ?_⟩
  · intro version
    by_cases hv : version = ""
    · subst hv
      have hmp : majorPart "" = "" := rfl
      simp [DEFAULT_BROWSERS, getLocalGatsbyMajorVersion, getLocalGatsbyVersion, hmp,
        hempty]
    · simp [DEFAULT_BROWSERS, getLocalGatsbyMajorVersion, getLocalGatsbyVersion, hv]
  · intro packageInfo
    unfold DEFAULT_BROWSERS
    by_cases hm : getLocalGatsbyMajorVersion Number packageInfo = .number (.finite 1)
    · rw [if_pos hm]
      constructor
      · intro hin
        exact absurd hin (by decide)
      · intro hne
        exact absurd hm hne
    · rw [if_neg hm]
      exact ⟨fun _ => hm, fun _ => by decide⟩
  · intro packageInfo field hf
    simp [siteInfoBrowserslist, hf]
  · intro packageInfo isLocalSite
    cases isLocalSite <;> rfl

/-- C9, with the conversion of decimal strings: Gatsby `1.9.279` gets the list
without `not dead`. -/
theorem DEFAULT_BROWSERS_by_major_witness :
    decimalNumber "" ≠ .finite 1 ∧
      DEFAULT_BROWSERS decimalNumber (some ⟨some "1.9.279"⟩) =
        ["> 1%", "last 2 versions", "IE >= 9"] :=
  ⟨by decide,
   ((DEFAULT_BROWSERS_by_major decimalNumber (by decide)).1 "1.9.279").trans (by decide)⟩

/-! ## The `telemetry` command -/

/-- C10, as stated, fails: with both `--enable` and `--disable` passed the
handler does not disable collection, it enables it. -/
theorem telemetryHandler_enable_wins :
    telemetryHandler (some true) (some true) =
        ⟨true, "Telemetry collection enabled"⟩ ∧
      telemetryHandler (some true) (some true) ≠
        ⟨false, "Telemetry collection disabled"⟩ := by
  decide

/-- C10, amended: the handler disables collection (`false`, `Telemetry
collection disabled`) when `--disable` is passed and `--enable` is not, and
enables it (`true`, `Telemetry collection enabled`) in every other case, the
one with neither flag included. -/
theorem telemetryHandler_spec (enable disable : Option Bool) :
    telemetryHandler enable disable =
      if disable = some true ∧ enable ≠ some true then
        ⟨false, "Telemetry collection disabled"⟩
      else ⟨true, "Telemetry collection enabled"⟩ := by
  rcases enable with _ | _ | _ <;> rcases disable with _ | _ | _ <;> decide

end CreateCli
